import Mathlib

/-!
Verification development for the Nishith Desai Associates search-engine
adapter (`searx/engines/nishithdesai.py`).

Python strings are modelled as `List Char` (`Str`); Python's string
operations (`strip`, `lower`, `startswith`, slicing, `in`, `re.sub` of
whitespace runs, `' '.join`) are re-implemented below with the same
semantics.  The lxml DOM is modelled abstractly: an element is a black box
whose `xpath` method either returns a list (of text/attribute strings) or
raises (the `Except.error` case); a document likewise yields element lists.
This matches the adapter's own view of lxml, which it only ever calls
through `element.xpath(expr)`.
-/

/-- Python strings are lists of unicode code points. -/
abbrev Str := List Char

/-- Coerce a Lean string literal to the `Str` representation. -/
def str (s : String) : Str := s.data

/-- Python `str.strip` whitespace class (ASCII part: space, tab, newline,
carriage return, vertical tab, form feed). -/
def pyIsSpace (c : Char) : Bool :=
  c = ' ' || c = '\t' || c = '\n' || c = '\r' || c = '\x0b' || c = '\x0c'

/-- Drop leading whitespace (left part of Python `strip`). -/
def trimLeftL (s : Str) : Str := s.dropWhile pyIsSpace

/-- Drop trailing whitespace (right part of Python `strip`). -/
def trimRightL (s : Str) : Str := (s.reverse.dropWhile pyIsSpace).reverse

/-- Python `str.strip()`: drop leading and trailing whitespace. -/
def pyStrip (s : Str) : Str := trimRightL (trimLeftL s)

/-- Python `str.lower()` (ASCII case folding suffices for the URLs here). -/
def pyLower (s : Str) : Str := s.map Char.toLower

/-- Python `str.startswith(pre)`. -/
def pyStartsWith (s pre : Str) : Bool := pre.isPrefixOf s

/-- Python `sub in s` substring test. -/
def pyContains (s sub : Str) : Bool := decide (sub <:+: s)

/-- Python `str.endswith(suf)`. -/
def pyEndsWith (s suf : Str) : Bool := suf.isSuffixOf s

/-- Python `re.sub(r'\s+', ' ', s)`: replace every maximal run of
whitespace characters by a single space. -/
def collapseWs : Str → Str
  | [] => []
  | [c] => if pyIsSpace c then [' '] else [c]
  | c :: c' :: rest =>
    if pyIsSpace c && pyIsSpace c' then collapseWs (c' :: rest)
    else (if pyIsSpace c then ' ' else c) :: collapseWs (c' :: rest)

/-- Python `' '.join(xs)`. -/
def joinSpace (xs : List Str) : Str := List.intercalate (str " ") xs

/-!  Abstract DOM model.  An element's `xpath` either evaluates to a list of
strings (text nodes / attribute values, which is all the adapter ever
selects below an element) or fails; `textContent` is the element's visible
text.  `extract_text` (searx.utils, not part of this repository's sources)
is Modelled from the spec: it returns the element's visible text. -/

/-- Abstract lxml element as seen by the adapter. -/
structure Element where
  xpath : Str → Except Str (List Str)
  textContent : Str

/-- Abstract lxml document: document-level XPath queries return candidate
elements (or raise). -/
structure Dom where
  xpathElems : Str → Except Str (List Element)

/-- Helper function to safely evaluate XPath expressions
(`eval_xpath`, lines 262-267 of the source): any exception from the
underlying evaluator is swallowed and the empty list returned. -/
def eval_xpath (element : Element) (xpath_expr : Str) : List Str :=
  match element.xpath xpath_expr with
  | .ok l => l
  | .error _ => []

/-- The same `eval_xpath` helper applied at document level, where lxml
returns element lists. -/
def eval_xpath_dom (dom : Dom) (xpath_expr : Str) : List Element :=
  match dom.xpathElems xpath_expr with
  | .ok l => l
  | .error _ => []

/-- Modelled from the spec: `eval_xpath_getindex(link, './@href', 0, None)`
from searx.utils (not part of this repository's sources): return entry 0 of
the XPath result when the result is non-empty, the default `None`
otherwise; an evaluation failure propagates as an exception (handled by the
caller's per-link `except`). -/
def eval_xpath_getindex0 (link : Element) (xpath_expr : Str) : Except Str (Option Str) :=
  match link.xpath xpath_expr with
  | .ok l => .ok l.head?
  | .error e => .error e

/-- Emitted result records: `res.types.Link` and `res.types.File`
(the latter carries `template='files.html'` in the source). -/
inductive ResultRecord where
  | Link (url title content : Str)
  | File (url title content : Str)
deriving DecidableEq, Repr

/-- URL of a record. -/
def ResultRecord.url : ResultRecord → Str
  | .Link u _ _ => u
  | .File u _ _ => u

/-- Title of a record. -/
def ResultRecord.title : ResultRecord → Str
  | .Link _ t _ => t
  | .File _ t _ => t

/-- Content/snippet of a record. -/
def ResultRecord.content : ResultRecord → Str
  | .Link _ _ c => c
  | .File _ _ c => c

/-- Whether the record is a `Link` result. -/
def ResultRecord.isLink : ResultRecord → Bool
  | .Link _ _ _ => true
  | .File _ _ _ => false

/-- Engine base URL (line 42). -/
def base_url : Str := str "https://www.nishithdesai.com"

/-- Search endpoint (line 43). -/
def search_url : Str := base_url ++ str "/Search.html"

/-- Static browser-mimicking header bundle (lines 46-54). -/
def headers : List (Str × Str) :=
  [ (str "User-Agent", str "Mozilla/5.0 (Windows NT 10.0; Win64; x64) AppleWebKit/537.36 (KHTML, like Gecko) Chrome/120.0.0.0 Safari/537.36"),
    (str "Accept", str "text/html,application/xhtml+xml,application/xml;q=0.9,image/webp,*/*;q=0.8"),
    (str "Accept-Language", str "en-US,en;q=0.5"),
    (str "Accept-Encoding", str "gzip, deflate"),
    (str "DNT", str "1"),
    (str "Connection", str "keep-alive"),
    (str "Upgrade-Insecure-Requests", str "1") ]

/-- Container selectors tried in order (lines 90-99). -/
def result_selectors : List Str :=
  [ str "//div[contains(@class, \"search-result\")]",
    str "//div[contains(@class, \"result\")]",
    str "//div[contains(@class, \"article\")]",
    str "//div[contains(@class, \"hotline\")]",
    str "//div[contains(@class, \"news\")]",
    str "//div[contains(@class, \"content-item\")]",
    str "//article",
    str "//div[contains(@class, \"list-item\")]" ]

/-- Title selectors tried in order (lines 114-123). -/
def title_selectors : List Str :=
  [ str ".//h1/text()",
    str ".//h2/text()",
    str ".//h3/text()",
    str ".//h4/text()",
    str ".//a/text()",
    str ".//strong/text()",
    str ".//span[@class=\"title\"]/text()",
    str ".//div[@class=\"title\"]/text()" ]

/-- URL selectors tried in order (lines 136-139). -/
def url_selectors : List Str := [str ".//a/@href", str ".//@href"]

/-- Content selectors tried in order (lines 158-165). -/
def content_selectors : List Str :=
  [ str ".//p/text()",
    str ".//div[@class=\"content\"]/text()",
    str ".//div[@class=\"description\"]/text()",
    str ".//div[@class=\"excerpt\"]/text()",
    str ".//span[@class=\"snippet\"]/text()",
    str ".//text()" ]

/-- Title extraction (lines 125-130): take the first selector whose match
list is non-empty, and strip its first entry.  `None` when every selector
matches nothing. -/
def extractTitle (result : Element) : Option Str :=
  Option.map pyStrip (title_selectors.findSome? fun sel => (eval_xpath result sel).head?)

/-- URL extraction (lines 141-146): first entry of the first non-empty
match among the URL selectors. -/
def extractUrl (result : Element) : Option Str :=
  url_selectors.findSome? fun sel => (eval_xpath result sel).head?

/-- URL normalization (lines 151-155): root-relative paths are joined to
the base origin, scheme-less paths get a `/` separator, anything starting
with `http` passes through unchanged. -/
def normalizeUrl (url : Str) : Str :=
  if pyStartsWith url (str "/") then base_url ++ url
  else if !pyStartsWith url (str "http") then base_url ++ str "/" ++ url
  else url

/-- Content extraction (lines 167-172): for the first selector with a
non-empty match list, strip the first three matches, drop the empty ones,
and join with single spaces; empty string when nothing matches. -/
def extractContent (result : Element) : Str :=
  match content_selectors.findSome? (fun sel =>
      let es := eval_xpath result sel
      if es.isEmpty then none else some es) with
  | none => str ""
  | some es => joinSpace (((es.take 3).map pyStrip).filter fun t => !t.isEmpty)

/-- Content cleanup (lines 174-177): collapse whitespace runs, strip, and
truncate to 297 characters plus `...` when longer than 300. -/
def cleanContent (s : Str) : Str :=
  let c := pyStrip (collapseWs s)
  if 300 < c.length then c.take 297 ++ str "..." else c

/-- Classification and record construction (lines 179-211): case-insensitive
substring tests on the normalized URL, in priority order; the `.pdf` branch
emits a `File` with the bare title, every other branch emits a `Link` with
a `[content-type] ` title prefix. -/
def classify (url title content : Str) : ResultRecord :=
  let url_lower := pyLower url
  if pyContains url_lower (str "hotline") then
    .Link url (str "[Legal Hotline] " ++ title) content
  else if pyContains url_lower (str "research") || pyContains url_lower (str "article") then
    .Link url (str "[Research Article] " ++ title) content
  else if pyContains url_lower (str "news") then
    .Link url (str "[News] " ++ title) content
  else if pyContains url_lower (str ".pdf") then
    .File url title content
  else
    .Link url (str "[Legal Content] " ++ title) content

/-- Candidate processing after a title of length at least 5 was accepted
(lines 135-211): extract a URL (skip when absent or empty), normalize it,
extract and clean the snippet, classify and emit. -/
def afterTitle (result : Element) (title : Str) : Option ResultRecord :=
  match extractUrl result with
  | none => none
  | some url0 =>
    if url0.isEmpty then none
    else
      some (classify (normalizeUrl url0) title (cleanContent (extractContent result)))

/-- Whole per-candidate step of the main loop (lines 111-215): skip when no
title selector matches or the stripped title is shorter than 5 characters,
otherwise continue with URL, snippet and classification. -/
def processCandidate (result : Element) : Option ResultRecord :=
  match extractTitle result with
  | none => none
  | some title =>
    if title.length < 5 then none
    else afterTitle result title

/-- Container cascade plus tier-1 link fallback (lines 101-109): the first
container selector with a non-empty match wins; if none matches, every
`//a[contains(@href, "/")]` link becomes a candidate. -/
def candidatesOf (dom : Dom) : List Element :=
  let containers :=
    match result_selectors.findSome? (fun sel =>
        let r := eval_xpath_dom dom sel
        if r.isEmpty then none else some r) with
    | some r => r
    | none => []
  if containers.isEmpty then eval_xpath_dom dom (str "//a[contains(@href, \"/\")]")
  else containers

/-- Per-link step of the tier-2 fallback (lines 223-253): an exception while
reading the href skips the link; otherwise the link is accepted when the
href is present and non-empty, does not start with `#`, `javascript:` or
`mailto:`, and the stripped visible text is longer than 10 characters. -/
def tier2Step (link : Element) : Option ResultRecord :=
  match eval_xpath_getindex0 link (str "./@href") with
  | .error _ => none
  | .ok none => none
  | .ok (some href) =>
    let link_text := link.textContent
    if !href.isEmpty && !link_text.isEmpty
        && decide (10 < (pyStrip link_text).length)
        && !pyStartsWith href (str "#")
        && !pyStartsWith href (str "javascript:")
        && !pyStartsWith href (str "mailto:") then
      some (.Link (normalizeUrl href) (pyStrip link_text)
        (str "Content from Nishith Desai Associates"))
    else none

/-- Tier-2 fallback loop (lines 219-253): runs over all `//a[@href]` links,
appending accepted links to the (empty, since tier 2 only runs then)
result list and breaking once 10 results have accumulated. -/
def tier2Loop : List Element → List ResultRecord → List ResultRecord
  | [], acc => acc
  | l :: ls, acc =>
    match tier2Step l with
    | none => tier2Loop ls acc
    | some r =>
      if 10 ≤ (acc ++ [r]).length then acc ++ [r]
      else tier2Loop ls (acc ++ [r])

/-- Response parser (`response`, lines 79-259).  The host hands the adapter
`resp.text`; `html.fromstring` is the external lxml parse whose outcome
(document or exception) is the `Except` argument here.  A parse failure is
caught by the top-level `except` and yields the empty result list.
`EngineResults` (searx.result_types, not part of this repository's sources)
is Modelled from the spec: an ordered result sequence whose `add` appends. -/
def response (parsed : Except Str Dom) : List ResultRecord :=
  match parsed with
  | .error _ => []
  | .ok dom =>
    let main := (candidatesOf dom).filterMap processCandidate
    if main.isEmpty then tier2Loop (eval_xpath_dom dom (str "//a[@href]")) []
    else main

/-- Host-provided request parameter bundle (the `params` dict): the fields
the adapter reads (`pageno`) and writes (`url`, `method`, `headers`). -/
structure Params where
  pageno : Option Nat
  url : Str
  method : Str
  headers : List (Str × Str)
deriving DecidableEq

/-- Decimal rendering of a page number, Python `str(n)`. -/
def natStr (n : Nat) : Str := (Nat.repr n).data

/-- Engine traits object mutated by `fetch_traits`: dicts are modelled as
ordered association lists with Python dict-assignment semantics. -/
structure EngineTraits where
  all_locale : Option Str
  languages : List (Str × Str)
  regions : List (Str × Str)
deriving DecidableEq

/-- Python dict assignment `m[k] = v`: overwrite in place when the key
exists, append otherwise. -/
def dictSet (m : List (Str × Str)) (k v : Str) : List (Str × Str) :=
  if m.any (fun p => p.1 = k) then m.map (fun p => if p.1 = k then (k, v) else p)
  else m ++ [(k, v)]

/-- Traits population (`fetch_traits`, lines 277-285). -/
def fetch_traits (engine_traits : EngineTraits) : EngineTraits :=
  { all_locale := some (str "en-IN"),
    languages := dictSet engine_traits.languages (str "en") (str "English"),
    regions := dictSet (dictSet engine_traits.regions (str "IN") (str "India"))
      (str "US") (str "United States") }

/-- Fresh (empty) traits object. -/
def freshTraits : EngineTraits := { all_locale := none, languages := [], regions := [] }

/-!  Percent-encoding: `urllib.parse.urlencode` with its default
`quote_via=quote_plus`.  Characters in `_ALWAYS_SAFE` (ASCII letters,
digits, `_.-~`) pass through, a space becomes `+`, and every other
character is rendered as the uppercase-hex `%XX` encoding of its UTF-8
bytes.  A decoder (`unquote_plus`) is defined as well so that
"correctly percent-encoded" can be stated as a round trip. -/

/-- Membership in CPython's `_ALWAYS_SAFE` set: ASCII letters, digits and
`_.-~`. -/
def isAlwaysSafe (c : Char) : Bool :=
  (65 ≤ c.toNat && c.toNat ≤ 90) || (97 ≤ c.toNat && c.toNat ≤ 122)
    || (48 ≤ c.toNat && c.toNat ≤ 57)
    || c.toNat = 95 || c.toNat = 46 || c.toNat = 45 || c.toNat = 126

/-- UTF-8 encoding of one code point, as byte values. -/
def utf8Bytes (c : Char) : List Nat :=
  if c.toNat < 128 then [c.toNat]
  else if c.toNat < 2048 then [192 + c.toNat / 64, 128 + c.toNat % 64]
  else if c.toNat < 65536 then
    [224 + c.toNat / 4096, 128 + (c.toNat / 64) % 64, 128 + c.toNat % 64]
  else
    [240 + c.toNat / 262144, 128 + (c.toNat / 4096) % 64, 128 + (c.toNat / 64) % 64,
      128 + c.toNat % 64]

/-- Uppercase hex digit for a value below 16. -/
def hexDigit (n : Nat) : Char := Char.ofNat (if n < 10 then 48 + n else 55 + n)

/-- Percent-encode one character: safe characters unchanged, space to `+`,
anything else to `%XX` per UTF-8 byte. -/
def quoteCharL (c : Char) : List Char :=
  if isAlwaysSafe c then [c]
  else if c = ' ' then ['+']
  else (utf8Bytes c).flatMap fun b => ['%', hexDigit (b / 16), hexDigit (b % 16)]

/-- Python `urllib.parse.quote_plus`. -/
def quote_plus (s : Str) : Str := s.flatMap quoteCharL

/-- Value of a hex digit (either case), `None` for a non-hex character. -/
def hexVal (c : Char) : Option Nat :=
  let n := c.toNat
  if 48 ≤ n ∧ n ≤ 57 then some (n - 48)
  else if 65 ≤ n ∧ n ≤ 70 then some (n - 55)
  else if 97 ≤ n ∧ n ≤ 102 then some (n - 87)
  else none

/-- Percent-decoding to a byte sequence: `+` is a space, `%XX` a byte,
anything else stands for its own (ASCII) code point. -/
def pqDecode : List Char → Option (List Nat)
  | [] => some []
  | c :: rest =>
    if c = '+' then Option.map (fun bs => 32 :: bs) (pqDecode rest)
    else if c = '%' then
      match rest with
      | h1 :: h2 :: rest' =>
        match hexVal h1, hexVal h2 with
        | some v1, some v2 => Option.map (fun bs => (16 * v1 + v2) :: bs) (pqDecode rest')
        | _, _ => none
      | _ => none
    else Option.map (fun bs => c.toNat :: bs) (pqDecode rest)

/-- UTF-8 decoding of one code point from the front of a byte sequence,
returning the decoded character and the remaining bytes. -/
def utf8DecodeStep : List Nat → Option (Char × List Nat) := fun l =>
  match l with
  | [] => none
  | b :: rest =>
    if b < 128 then some (Char.ofNat b, rest)
    else if b < 192 then none
    else if b < 224 then
      match rest with
      | b1 :: rest' =>
        if 128 ≤ b1 ∧ b1 < 192 then some (Char.ofNat ((b - 192) * 64 + (b1 - 128)), rest')
        else none
      | [] => none
    else if b < 240 then
      match rest with
      | b1 :: b2 :: rest' =>
        if (128 ≤ b1 ∧ b1 < 192) ∧ (128 ≤ b2 ∧ b2 < 192) then
          some (Char.ofNat ((b - 224) * 4096 + (b1 - 128) * 64 + (b2 - 128)), rest')
        else none
      | _ => none
    else if b < 248 then
      match rest with
      | b1 :: b2 :: b3 :: rest' =>
        if (128 ≤ b1 ∧ b1 < 192) ∧ (128 ≤ b2 ∧ b2 < 192) ∧ (128 ≤ b3 ∧ b3 < 192) then
          some (Char.ofNat ((b - 240) * 262144 + (b1 - 128) * 4096 + (b2 - 128) * 64
            + (b3 - 128)), rest')
        else none
      | _ => none
    else none

/-- UTF-8 decoding of a byte sequence. -/
def utf8Decode : List Nat → Option (List Char)
  | [] => some []
  | b :: rest =>
    match h : utf8DecodeStep (b :: rest) with
    | none => none
    | some p => Option.map (fun l => p.1 :: l) (utf8Decode p.2)
termination_by l => l.length
decreasing_by
  revert h
  unfold utf8DecodeStep
  simp only
  intro h
  repeat' split at h
  all_goals try (exfalso; simp at h; done)
  all_goals simp only [Option.some.injEq] at h
  all_goals rw [← h]
  all_goals first
    | (simp; omega)
    | simp
    | omega

/-- Inverse of `quote_plus`: percent-decode to bytes, then UTF-8 decode. -/
def unquote_plus (s : Str) : Option Str := (pqDecode s).bind utf8Decode

/-- Python `urllib.parse.urlencode` on an ordered parameter list. -/
def urlencode (ps : List (Str × Str)) : Str :=
  List.intercalate (str "&") (ps.map fun p => quote_plus p.1 ++ str "=" ++ quote_plus p.2)

/-- Request builder (`request`, lines 57-76): strip the query, build the
four search parameters, url-encode them onto the search endpoint, and set
method and headers. -/
def request (query : Str) (params : Params) : Params :=
  let q := pyStrip query
  let search_params :=
    [ (str "q", q),
      (str "searchtext", q),
      (str "page", natStr (params.pageno.getD 1)),
      (str "results", natStr 20) ]
  { pageno := params.pageno,
    url := search_url ++ str "?" ++ urlencode search_params,
    method := str "GET",
    headers := headers }

/-!  Definitions written from the specification's wording, for comparison
with the implementation: the spec's notion of an absolute URL, and the
spec's "first 3 non-empty trimmed text fragments" snippet rule. -/

/-- Spec wording: a URL is absolute when it has an http/https scheme. -/
def isAbsoluteHttpUrl (u : Str) : Bool :=
  pyStartsWith u (str "http://") || pyStartsWith u (str "https://")

/-- Spec wording: take the first 3 non-empty trimmed text fragments of the
matches and join them with single spaces. -/
def snippetFromFirstThreeNonEmpty (ms : List Str) : Str :=
  joinSpace (((ms.map pyStrip).filter fun t => !t.isEmpty).take 3)

/-!  Concrete elements and documents used to instantiate the theorems. -/

/-- Element whose first non-empty title selector is h2, whose href starts
with `http` but is not an http/https URL. -/
def c1Elem : Element where
  xpath := fun sel =>
    if sel = str ".//h2/text()" then .ok [str "Important Legal Update"]
    else if sel = str ".//a/@href" then .ok [str "httpfoo/doc.html"]
    else .ok []
  textContent := str ""

/-- Document whose only matching container selector is `//article`. -/
def c1Dom : Dom where
  xpathElems := fun sel => if sel = str "//article" then .ok [c1Elem] else .ok []

/-- Element reproducing the spec's end-to-end example. -/
def c1wElem : Element where
  xpath := fun sel =>
    if sel = str ".//h2/text()" then .ok [str "Cross-Border Tax Hotline"]
    else if sel = str ".//a/@href" then .ok [str "/hotline/123.html"]
    else if sel = str ".//p/text()" then .ok [str "Summary text."]
    else .ok []
  textContent := str ""

/-- Document carrying the spec's end-to-end example element. -/
def c1wDom : Dom where
  xpathElems := fun sel => if sel = str "//article" then .ok [c1wElem] else .ok []

/-- Raw snippet of 301 characters, longer than the 300-character cap. -/
def c2Raw : Str := List.replicate 301 'a'

/-- Element with a title, a link and a short paragraph. -/
def c2wElem : Element where
  xpath := fun sel =>
    if sel = str ".//h3/text()" then .ok [str "Data Protection Update"]
    else if sel = str ".//a/@href" then .ok [str "/research/data.html"]
    else if sel = str ".//p/text()" then .ok [str "Short summary."]
    else .ok []
  textContent := str ""

/-- Document carrying `c2wElem` under the `//article` selector. -/
def c2wDom : Dom where
  xpathElems := fun sel => if sel = str "//article" then .ok [c2wElem] else .ok []

/-- Element whose URL ends in `.pdf` but also contains `hotline`. -/
def c3Elem : Element where
  xpath := fun sel =>
    if sel = str ".//h2/text()" then .ok [str "Tax Treaty Guide"]
    else if sel = str ".//a/@href" then .ok [str "/hotline/guide.pdf"]
    else .ok []
  textContent := str ""

/-- Document carrying `c3Elem` under the `//article` selector. -/
def c3Dom : Dom where
  xpathElems := fun sel => if sel = str "//article" then .ok [c3Elem] else .ok []

/-- Element whose URL ends in `.pdf` and matches no earlier content-type
keyword. -/
def c3wElem : Element where
  xpath := fun sel =>
    if sel = str ".//h2/text()" then .ok [str "Annual Compliance Report"]
    else if sel = str ".//a/@href" then .ok [str "/files/annual-compliance-report.pdf"]
    else .ok []
  textContent := str ""

/-- Link element accepted by the tier-2 fallback. -/
def c3wLink : Element where
  xpath := fun sel => if sel = str "./@href" then .ok [str "/insights/overview.html"] else .ok []
  textContent := str "  Overview of regulatory insights  "

/-- Element whose h1 text node is whitespace-only while h2 holds a real
title. -/
def c4wElem : Element where
  xpath := fun sel =>
    if sel = str ".//h1/text()" then .ok []
    else if sel = str ".//h2/text()" then .ok [str "  Valid Heading  "]
    else if sel = str ".//a/@href" then .ok [str "/article/42.html"]
    else .ok []
  textContent := str ""

/-- Element matching no title selector at all. -/
def c4wEmpty : Element where
  xpath := fun _ => .ok []
  textContent := str ""

/-- Element whose only title text is shorter than 5 characters. -/
def c4wShort : Element where
  xpath := fun sel =>
    if sel = str ".//h1/text()" then .ok [str "Hi"]
    else .ok []
  textContent := str ""

/-- Element whose paragraph matches include a whitespace-only fragment
before three real fragments. -/
def c5Elem : Element where
  xpath := fun sel =>
    if sel = str ".//p/text()" then
      .ok [str "   ", str "Legal update on tax.", str "More details here.",
        str "Third fragment text."]
    else .ok []
  textContent := str ""

/-- Element whose paragraph matches hold two fragments. -/
def c5wElem : Element where
  xpath := fun sel =>
    if sel = str ".//p/text()" then .ok [str " First part. ", str "Second part."]
    else .ok []
  textContent := str ""

/-- Document with one accepted candidate (main path non-empty). -/
def c6wDom1 : Dom where
  xpathElems := fun sel => if sel = str "//article" then .ok [c1wElem] else .ok []

/-- Link element accepted by tier 2. -/
def c6wLink : Element where
  xpath := fun sel => if sel = str "./@href" then .ok [str "/reports/yearly.html"] else .ok []
  textContent := str "Yearly report of the firm"

/-- Document where no container and no tier-1 candidate yields a record,
and one tier-2 link exists. -/
def c6wDom2 : Dom where
  xpathElems := fun sel => if sel = str "//a[@href]" then .ok [c6wLink] else .ok []

/-- Element whose xpath evaluator always raises. -/
def c10Elem : Element where
  xpath := fun _ => .error (str "XPathEvalError: Invalid expression")
  textContent := str ""

/-- Element whose xpath evaluator returns one text node. -/
def c10OkElem : Element where
  xpath := fun _ => .ok [str "ok"]
  textContent := str ""

lemma pyStrip_eq_rdrop_drop (s : Str) :
    pyStrip s = (s.dropWhile pyIsSpace).rdropWhile pyIsSpace := rfl

lemma pyStrip_dropWhile (t : Str) (h : pyStrip t = t) : t.dropWhile pyIsSpace = t := by
  have hsuf : t.dropWhile pyIsSpace <:+ t := List.dropWhile_suffix _
  apply hsuf.eq_of_length
  have h1 : ((t.dropWhile pyIsSpace).rdropWhile pyIsSpace).length = t.length := by
    rw [← pyStrip_eq_rdrop_drop, h]
  have h2 := ( List.rdropWhile_prefix pyIsSpace (t.dropWhile pyIsSpace)).length_le
  have h3 := hsuf.length_le
  omega

lemma pyStrip_rdropWhile (t : Str) (h : pyStrip t = t) : t.rdropWhile pyIsSpace = t := by
  have hd := pyStrip_dropWhile t h
  calc t.rdropWhile pyIsSpace = (t.dropWhile pyIsSpace).rdropWhile pyIsSpace := by rw [hd]
    _ = pyStrip t := rfl
    _ = t := h

lemma dropWhile_eq_self_head {α : Type} (p : α → Bool) (y : α) (ys : List α)
    (h : (y :: ys).dropWhile p = y :: ys) : p y = false := by
  by_contra hy
  rw [Bool.not_eq_false] at hy
  rw [List.dropWhile_cons, if_pos hy] at h
  have h1 := (List.dropWhile_suffix p (l := ys)).length_le
  have h2 := congrArg List.length h
  simp only [List.length_cons] at h2
  omega

lemma dropWhile_head?_not {α : Type} (p : α → Bool) (l : List α) (x : α)
    (h : (l.dropWhile p).head? = some x) : p x = false := by
  induction l with
  | nil => simp [List.dropWhile] at h
  | cons a l ih =>
    rw [List.dropWhile_cons] at h
    by_cases hp : p a
    · rw [if_pos hp] at h; exact ih h
    · rw [if_neg hp] at h
      simp only [List.head?_cons, Option.some.injEq] at h
      subst h
      simpa using hp

lemma pyStrip_idem (s : Str) : pyStrip (pyStrip s) = pyStrip s := by
  have h1 : (pyStrip s).dropWhile pyIsSpace = pyStrip s := by
    cases hps : pyStrip s with
    | nil => rfl
    | cons x xs =>
      obtain ⟨u, hu⟩ := List.rdropWhile_prefix pyIsSpace (s.dropWhile pyIsSpace)
      have hu' : pyStrip s ++ u = s.dropWhile pyIsSpace := hu
      rw [hps] at hu'
      have hx : pyIsSpace x = false := by
        apply dropWhile_head?_not pyIsSpace s x
        rw [← hu']
        rfl
      rw [List.dropWhile_cons, if_neg (by simp [hx])]
  have h2 : (pyStrip s).rdropWhile pyIsSpace = pyStrip s :=
    List.rdropWhile_idempotent pyIsSpace (s.dropWhile pyIsSpace)
  rw [pyStrip_eq_rdrop_drop (pyStrip s), h1, h2]

lemma pyStrip_cons_append (c : Char) (a t : Str) (hc : pyIsSpace c = false)
    (ht : pyStrip t = t) (hne : t ≠ []) :
    pyStrip (c :: (a ++ t)) = c :: (a ++ t) := by
  have hdrop : (c :: (a ++ t)).dropWhile pyIsSpace = c :: (a ++ t) := by
    rw [List.dropWhile_cons, if_neg (by simp [hc])]
  have ht' : t.reverse.dropWhile pyIsSpace = t.reverse := by
    have h0 := pyStrip_rdropWhile t ht
    have h2 := congrArg List.reverse h0
    rwa [List.rdropWhile, List.reverse_reverse] at h2
  cases hrt : t.reverse with
  | nil => exact absurd (by simpa using congrArg List.reverse hrt) hne
  | cons y ys =>
    have hy : pyIsSpace y = false := by
      rw [hrt] at ht'
      exact dropWhile_eq_self_head pyIsSpace y ys ht'
    have hrev : (c :: (a ++ t)).reverse = y :: (ys ++ (a.reverse ++ [c])) := by
      rw [List.reverse_cons, List.reverse_append, hrt]
      simp [List.append_assoc]
    have hrevdrop : ((c :: (a ++ t)).reverse).dropWhile pyIsSpace = (c :: (a ++ t)).reverse := by
      rw [hrev, List.dropWhile_cons, if_neg (by simp [hy])]
    calc pyStrip (c :: (a ++ t))
        = (c :: (a ++ t)).rdropWhile pyIsSpace := by rw [pyStrip_eq_rdrop_drop, hdrop]
      _ = ((c :: (a ++ t)).reverse.dropWhile pyIsSpace).reverse := rfl
      _ = (c :: (a ++ t)).reverse.reverse := by rw [hrevdrop]
      _ = c :: (a ++ t) := List.reverse_reverse _

lemma cleanContent_def (s : Str) :
    cleanContent s = if 300 < (pyStrip (collapseWs s)).length
      then (pyStrip (collapseWs s)).take 297 ++ str "..." else pyStrip (collapseWs s) := rfl

lemma cleanContent_length_le (s : Str) : (cleanContent s).length ≤ 300 := by
  rw [cleanContent_def]
  split
  · rename_i h
    simp only [List.length_append, List.length_take]
    have h3 : (str "...").length = 3 := by decide
    omega
  · rename_i h
    omega

lemma cleanContent_of_long (s : Str) (h : 300 < (pyStrip (collapseWs s)).length) :
    (cleanContent s).length = 300 ∧ (cleanContent s).drop 297 = str "..." := by
  rw [cleanContent_def, if_pos h]
  refine ⟨?_, ?_⟩
  · simp only [List.length_append, List.length_take]
    have h3 : (str "...").length = 3 := by decide
    omega
  · have hlen : ((pyStrip (collapseWs s)).take 297).length = 297 := by
      simp only [List.length_take]
      omega
    generalize hP : (pyStrip (collapseWs s)).take 297 = P
    have hlen2 : P.length = 297 := by rw [← hP]; exact hlen
    rw [← hlen2]
    exact List.drop_left _ _

lemma normalizeUrl_startsWith_http (u : Str) :
    pyStartsWith (normalizeUrl u) (str "http") = true := by
  have hbase : str "http" <+: base_url := by decide
  have hbridge : ∀ v : Str, (str "http") <+: v → pyStartsWith v (str "http") = true := by
    intro v hv
    rw [show pyStartsWith v (str "http") = (str "http").isPrefixOf v from rfl]
    exact List.isPrefixOf_iff_prefix.mpr hv
  unfold normalizeUrl
  split
  · exact hbridge _ (hbase.trans (List.prefix_append _ _))
  · split
    · refine hbridge _ (hbase.trans ?_)
      rw [List.append_assoc]
      exact List.prefix_append _ _
    · rename_i h1 h2
      simpa using h2

lemma char_range (c : Char) : c.toNat < 55296 ∨ (57343 < c.toNat ∧ c.toNat < 1114112) := c.valid

lemma hexVal_hexDigit (n : Nat) (h : n < 16) : hexVal (hexDigit n) = some n := by
  interval_cases n <;> decide

lemma utf8Bytes_lt (c : Char) : ∀ b ∈ utf8Bytes c, b < 256 := by
  intro b hb
  have hv := char_range c
  unfold utf8Bytes at hb
  split at hb
  · rename_i h
    simp only [List.mem_singleton] at hb
    omega
  · split at hb
    · rename_i h1 h2
      simp only [List.mem_cons, List.mem_singleton, List.not_mem_nil, or_false] at hb
      rcases hb with hb | hb <;> omega
    · split at hb
      · rename_i h1 h2 h3
        simp only [List.mem_cons, List.mem_singleton, List.not_mem_nil, or_false] at hb
        rcases hb with hb | hb | hb <;> omega
      · rename_i h1 h2 h3
        simp only [List.mem_cons, List.mem_singleton, List.not_mem_nil, or_false] at hb
        have hub : c.toNat < 1114112 := by omega
        have h5 : c.toNat / 262144 < 5 := by omega
        rcases hb with hb | hb | hb | hb <;> omega

lemma pqDecode_cons_plain (c : Char) (rest : Str) (h1 : c ≠ '+') (h2 : c ≠ '%') :
    pqDecode (c :: rest) = Option.map (fun bs => c.toNat :: bs) (pqDecode rest) := by
  rw [pqDecode.eq_def]
  show (if c = '+' then Option.map (fun bs => 32 :: bs) (pqDecode rest)
      else if c = '%' then
        (match rest with
          | h1 :: h2 :: rest' =>
            match hexVal h1, hexVal h2 with
            | some v1, some v2 => Option.map (fun bs => (16 * v1 + v2) :: bs) (pqDecode rest')
            | _, _ => none
          | _ => none)
      else Option.map (fun bs => c.toNat :: bs) (pqDecode rest))
    = Option.map (fun bs => c.toNat :: bs) (pqDecode rest)
  rw [if_neg h1, if_neg h2]

lemma pqDecode_cons_plus (rest : Str) :
    pqDecode ('+' :: rest) = Option.map (fun bs => 32 :: bs) (pqDecode rest) := by
  rw [pqDecode.eq_def]
  show (if '+' = '+' then Option.map (fun bs => 32 :: bs) (pqDecode rest)
      else if '+' = '%' then
        (match rest with
          | h1 :: h2 :: rest' =>
            match hexVal h1, hexVal h2 with
            | some v1, some v2 => Option.map (fun bs => (16 * v1 + v2) :: bs) (pqDecode rest')
            | _, _ => none
          | _ => none)
      else Option.map (fun bs => Char.toNat '+' :: bs) (pqDecode rest))
    = Option.map (fun bs => 32 :: bs) (pqDecode rest)
  rw [if_pos rfl]

lemma pqDecode_percent_block (bs : List Nat) (hb : ∀ b ∈ bs, b < 256) (rest : Str) :
    pqDecode ((bs.flatMap fun b => ['%', hexDigit (b / 16), hexDigit (b % 16)]) ++ rest)
      = Option.map (fun l => bs ++ l) (pqDecode rest) := by
  induction bs with
  | nil =>
    show pqDecode rest = Option.map (fun l => [] ++ l) (pqDecode rest)
    cases pqDecode rest <;> rfl
  | cons b bs ih =>
    have hblt : b < 256 := hb b (List.mem_cons_self _ _)
    have ih' := ih fun x hx => hb x (List.mem_cons_of_mem _ hx)
    have hshape : ((b :: bs).flatMap fun x => ['%', hexDigit (x / 16), hexDigit (x % 16)]) ++ rest
        = '%' :: hexDigit (b / 16) :: hexDigit (b % 16)
            :: ((bs.flatMap fun x => ['%', hexDigit (x / 16), hexDigit (x % 16)]) ++ rest) := by
      rw [List.flatMap_cons]
      simp [List.append_assoc]
    rw [hshape]
    rw [show pqDecode ('%' :: hexDigit (b / 16) :: hexDigit (b % 16)
          :: ((bs.flatMap fun x => ['%', hexDigit (x / 16), hexDigit (x % 16)]) ++ rest))
        = (match hexVal (hexDigit (b / 16)), hexVal (hexDigit (b % 16)) with
          | some v1, some v2 => Option.map (fun l => (16 * v1 + v2) :: l)
              (pqDecode ((bs.flatMap fun x => ['%', hexDigit (x / 16), hexDigit (x % 16)]) ++ rest))
          | _, _ => none) from rfl]
    rw [hexVal_hexDigit (b / 16) (by omega), hexVal_hexDigit (b % 16) (by omega)]
    show Option.map (fun l => (16 * (b / 16) + b % 16) :: l)
        (pqDecode ((bs.flatMap fun x => ['%', hexDigit (x / 16), hexDigit (x % 16)]) ++ rest))
      = _
    rw [ih']
    have hb' : 16 * (b / 16) + b % 16 = b := by omega
    cases pqDecode rest <;> simp [hb']

lemma utf8Decode_nil : utf8Decode [] = some [] := by
  unfold utf8Decode
  rfl

lemma utf8Decode_cons (b : Nat) (rest : List Nat) :
    utf8Decode (b :: rest) =
      match utf8DecodeStep (b :: rest) with
      | none => none
      | some p => Option.map (fun l => p.1 :: l) (utf8Decode p.2) := by
  rw [utf8Decode.eq_def]
  show (match _h : utf8DecodeStep (b :: rest) with
      | none => none
      | some p => Option.map (fun l => p.1 :: l) (utf8Decode p.2)) =
    (match utf8DecodeStep (b :: rest) with
      | none => none
      | some p => Option.map (fun l => p.1 :: l) (utf8Decode p.2))
  cases utf8DecodeStep (b :: rest) <;> rfl

lemma utf8Decode_of_step (l : List Nat) (c : Char) (r : List Nat)
    (h : utf8DecodeStep l = some (c, r)) :
    utf8Decode l = Option.map (fun t => c :: t) (utf8Decode r) := by
  cases l with
  | nil => simp [utf8DecodeStep] at h
  | cons b bs => rw [utf8Decode_cons, h]

lemma utf8DecodeStep_utf8Bytes (c : Char) (rest : List Nat) :
    utf8DecodeStep (utf8Bytes c ++ rest) = some (c, rest) := by
  have hv := char_range c
  by_cases h1 : c.toNat < 128
  · have hb : utf8Bytes c = [c.toNat] := by unfold utf8Bytes; rw [if_pos h1]
    rw [hb]
    show utf8DecodeStep (c.toNat :: rest) = some (c, rest)
    unfold utf8DecodeStep
    simp only
    rw [if_pos h1, Char.ofNat_toNat]
  · by_cases h2 : c.toNat < 2048
    · have hb : utf8Bytes c = [192 + c.toNat / 64, 128 + c.toNat % 64] := by
        unfold utf8Bytes; rw [if_neg h1, if_pos h2]
      rw [hb]
      show utf8DecodeStep ((192 + c.toNat / 64) :: (128 + c.toNat % 64) :: rest) = some (c, rest)
      unfold utf8DecodeStep
      simp only
      rw [if_neg (by omega), if_neg (by omega), if_pos (by omega),
        if_pos ⟨by omega, by omega⟩]
      have he : (192 + c.toNat / 64 - 192) * 64 + (128 + c.toNat % 64 - 128) = c.toNat := by omega
      rw [he, Char.ofNat_toNat]
    · by_cases h3 : c.toNat < 65536
      · have hb : utf8Bytes c
            = [224 + c.toNat / 4096, 128 + (c.toNat / 64) % 64, 128 + c.toNat % 64] := by
          unfold utf8Bytes; rw [if_neg h1, if_neg h2, if_pos h3]
        rw [hb]
        show utf8DecodeStep ((224 + c.toNat / 4096) :: (128 + (c.toNat / 64) % 64)
          :: (128 + c.toNat % 64) :: rest) = some (c, rest)
        unfold utf8DecodeStep
        simp only
        rw [if_neg (by omega), if_neg (by omega), if_neg (by omega), if_pos (by omega),
          if_pos ⟨⟨by omega, by omega⟩, by omega, by omega⟩]
        have he : (224 + c.toNat / 4096 - 224) * 4096 + (128 + (c.toNat / 64) % 64 - 128) * 64
            + (128 + c.toNat % 64 - 128) = c.toNat := by omega
        rw [he, Char.ofNat_toNat]
      · have hb : utf8Bytes c
            = [240 + c.toNat / 262144, 128 + (c.toNat / 4096) % 64, 128 + (c.toNat / 64) % 64,
                128 + c.toNat % 64] := by
          unfold utf8Bytes; rw [if_neg h1, if_neg h2, if_neg h3]
        have hub : c.toNat < 1114112 := by omega
        have h5 : c.toNat / 262144 < 5 := by omega
        rw [hb]
        show utf8DecodeStep ((240 + c.toNat / 262144) :: (128 + (c.toNat / 4096) % 64)
          :: (128 + (c.toNat / 64) % 64) :: (128 + c.toNat % 64) :: rest) = some (c, rest)
        unfold utf8DecodeStep
        simp only
        rw [if_neg (by omega), if_neg (by omega), if_neg (by omega), if_neg (by omega),
          if_pos (by omega), if_pos ⟨⟨by omega, by omega⟩, ⟨by omega, by omega⟩, by omega, by omega⟩]
        have he : (240 + c.toNat / 262144 - 240) * 262144
            + (128 + (c.toNat / 4096) % 64 - 128) * 4096
            + (128 + (c.toNat / 64) % 64 - 128) * 64 + (128 + c.toNat % 64 - 128) = c.toNat := by
          omega
        rw [he, Char.ofNat_toNat]

lemma isAlwaysSafe_lt (c : Char) (h : isAlwaysSafe c = true) : c.toNat < 128 := by
  simp only [isAlwaysSafe, Bool.or_eq_true, Bool.and_eq_true, decide_eq_true_eq] at h
  omega

lemma pqDecode_quoteChar (c : Char) (rest : Str) :
    pqDecode (quoteCharL c ++ rest) = Option.map (fun bs => utf8Bytes c ++ bs) (pqDecode rest) := by
  unfold quoteCharL
  by_cases hs : isAlwaysSafe c
  · rw [if_pos hs]
    have hc1 : c ≠ '+' := by intro he; rw [he] at hs; exact absurd hs (by decide)
    have hc2 : c ≠ '%' := by intro he; rw [he] at hs; exact absurd hs (by decide)
    have hb : utf8Bytes c = [c.toNat] := by
      unfold utf8Bytes; rw [if_pos (isAlwaysSafe_lt c hs)]
    rw [show ([c] : Str) ++ rest = c :: rest from rfl, pqDecode_cons_plain c rest hc1 hc2, hb]
    rfl
  · rw [if_neg hs]
    by_cases hsp : c = ' '
    · rw [if_pos hsp, hsp]
      rw [show (['+'] : Str) ++ rest = '+' :: rest from rfl, pqDecode_cons_plus rest]
      rfl
    · rw [if_neg hsp]
      exact pqDecode_percent_block (utf8Bytes c) (utf8Bytes_lt c) rest

lemma pqDecode_quote_plus (s : Str) : pqDecode (quote_plus s) = some (s.flatMap utf8Bytes) := by
  unfold quote_plus
  induction s with
  | nil => rfl
  | cons c cs ih =>
    rw [List.flatMap_cons, pqDecode_quoteChar c (cs.flatMap quoteCharL), ih, List.flatMap_cons]
    rfl

lemma utf8Decode_flatMap (s : Str) : utf8Decode (s.flatMap utf8Bytes) = some s := by
  induction s with
  | nil => exact utf8Decode_nil
  | cons c cs ih =>
    rw [List.flatMap_cons, utf8Decode_of_step _ c _ (utf8DecodeStep_utf8Bytes c _), ih]
    rfl

lemma unquote_plus_quote_plus (s : Str) : unquote_plus (quote_plus s) = some s := by
  unfold unquote_plus
  rw [pqDecode_quote_plus]
  exact utf8Decode_flatMap s

lemma extractTitle_strip (e : Element) (t : Str) (h : extractTitle e = some t) :
    pyStrip t = t := by
  unfold extractTitle at h
  rcases Option.map_eq_some'.mp h with ⟨r, _, hr⟩
  rw [← hr]
  exact pyStrip_idem r

lemma processCandidate_eq_some (e : Element) (rec : ResultRecord)
    (h : processCandidate e = some rec) :
    ∃ t url0, extractTitle e = some t ∧ 5 ≤ t.length ∧ extractUrl e = some url0 ∧ url0 ≠ [] ∧
      rec = classify (normalizeUrl url0) t (cleanContent (extractContent e)) := by
  unfold processCandidate at h
  cases het : extractTitle e with
  | none => rw [het] at h; simp at h
  | some t =>
    rw [het] at h
    simp only at h
    split at h
    · simp at h
    · rename_i h5
      unfold afterTitle at h
      cases heu : extractUrl e with
      | none => rw [heu] at h; simp at h
      | some u =>
        rw [heu] at h
        simp only at h
        split at h
        · simp at h
        · rename_i hne
          simp only [Option.some.injEq] at h
          refine ⟨t, u, rfl, by omega, rfl, ?_, h.symm⟩
          intro he
          rw [he] at hne
          exact hne rfl

lemma classify_rec (url t content : Str) :
    classify url t content = .File url t content ∨
    ∃ a, classify url t content = .Link url ('[' :: (a ++ t)) content := by
  simp only [classify]
  split
  · exact Or.inr ⟨str "Legal Hotline] ", rfl⟩
  · split
    · exact Or.inr ⟨str "Research Article] ", rfl⟩
    · split
      · exact Or.inr ⟨str "News] ", rfl⟩
      · split
        · exact Or.inl rfl
        · exact Or.inr ⟨str "Legal Content] ", rfl⟩

lemma classify_url (url t content : Str) : (classify url t content).url = url := by
  simp only [classify]
  split
  · rfl
  · split
    · rfl
    · split
      · rfl
      · split <;> rfl

lemma classify_content (url t content : Str) : (classify url t content).content = content := by
  simp only [classify]
  split
  · rfl
  · split
    · rfl
    · split
      · rfl
      · split <;> rfl

lemma pyStrip_bracket (a t : Str) (ht : pyStrip t = t) (hne : t ≠ []) :
    pyStrip ('[' :: (a ++ t)) = '[' :: (a ++ t) :=
  pyStrip_cons_append '[' a t (by decide) ht hne

lemma classify_title_strip_len (url t content : Str) (h5 : 5 ≤ t.length) (hst : pyStrip t = t) :
    5 ≤ (pyStrip (classify url t content).title).length := by
  have hne : t ≠ [] := by
    intro he
    rw [he] at h5
    simp at h5
  rcases classify_rec url t content with hc | ⟨a, hc⟩
  · rw [hc]
    show 5 ≤ (pyStrip t).length
    rw [hst]
    exact h5
  · rw [hc]
    show 5 ≤ (pyStrip ('[' :: (a ++ t))).length
    rw [pyStrip_bracket a t hst hne]
    simp only [List.length_cons, List.length_append]
    omega

lemma classify_pdf (url t content : Str)
    (h1 : pyContains (pyLower url) (str "hotline") = false)
    (h2 : pyContains (pyLower url) (str "research") = false)
    (h3 : pyContains (pyLower url) (str "article") = false)
    (h4 : pyContains (pyLower url) (str "news") = false)
    (h5 : pyContains (pyLower url) (str ".pdf") = true) :
    classify url t content = .File url t content := by
  simp only [classify]
  rw [if_neg (by simp [h1]), if_neg (by simp [h2, h3]), if_neg (by simp [h4]),
    if_pos (by simp [h5])]

lemma tier2Step_eq_some (link : Element) (rec : ResultRecord)
    (h : tier2Step link = some rec) :
    ∃ hrefs href, link.xpath (str "./@href") = .ok hrefs ∧ hrefs.head? = some href ∧
      href ≠ [] ∧ pyStartsWith href (str "#") = false ∧
      pyStartsWith href (str "javascript:") = false ∧
      pyStartsWith href (str "mailto:") = false ∧
      10 < (pyStrip link.textContent).length ∧
      rec = .Link (normalizeUrl href) (pyStrip link.textContent)
        (str "Content from Nishith Desai Associates") := by
  unfold tier2Step eval_xpath_getindex0 at h
  cases hx : link.xpath (str "./@href") with
  | error e => rw [hx] at h; simp at h
  | ok l =>
    rw [hx] at h
    simp only at h
    cases hh : l.head? with
    | none => rw [hh] at h; simp at h
    | some href =>
      rw [hh] at h
      simp only at h
      split at h
      · rename_i hcond
        simp only [Option.some.injEq] at h
        simp only [Bool.and_eq_true, Bool.not_eq_true', decide_eq_true_eq] at hcond
        obtain ⟨⟨⟨⟨⟨hne, hnet⟩, hlen⟩, h1⟩, h2⟩, h3⟩ := hcond
        refine ⟨l, href, rfl, hh, ?_, h1, h2, h3, hlen, h.symm⟩
        intro he
        rw [he] at hne
        simp at hne
      · simp at h

lemma tier2Loop_length (ls : List Element) (acc : List ResultRecord) (hacc : acc.length ≤ 9) :
    (tier2Loop ls acc).length ≤ 10 := by
  induction ls generalizing acc with
  | nil =>
    unfold tier2Loop
    omega
  | cons l ls ih =>
    unfold tier2Loop
    cases tier2Step l with
    | none =>
      simp only
      exact ih acc hacc
    | some r =>
      simp only
      split
      · rename_i hge
        simp only [List.length_append, List.length_cons, List.length_nil]
        omega
      · rename_i hlt
        apply ih
        simp only [List.length_append, List.length_cons, List.length_nil] at hlt ⊢
        omega

lemma tier2Loop_mem (ls : List Element) (acc : List ResultRecord) (rec : ResultRecord)
    (h : rec ∈ tier2Loop ls acc) :
    rec ∈ acc ∨ ∃ link, link ∈ ls ∧ tier2Step link = some rec := by
  induction ls generalizing acc with
  | nil =>
    left
    simpa [tier2Loop] using h
  | cons l ls ih =>
    unfold tier2Loop at h
    cases hs : tier2Step l with
    | none =>
      rw [hs] at h
      simp only at h
      rcases ih _ h with h1 | ⟨link, hm, he⟩
      · exact Or.inl h1
      · exact Or.inr ⟨link, List.mem_cons_of_mem _ hm, he⟩
    | some r =>
      rw [hs] at h
      simp only at h
      split at h
      · rcases List.mem_append.mp h with h1 | h1
        · exact Or.inl h1
        · refine Or.inr ⟨l, List.mem_cons_self _ _, ?_⟩
          rw [hs]
          simp only [List.mem_singleton] at h1
          rw [h1]
      · rcases ih _ h with h1 | ⟨link, hm, he⟩
        · rcases List.mem_append.mp h1 with h2 | h2
          · exact Or.inl h2
          · refine Or.inr ⟨l, List.mem_cons_self _ _, ?_⟩
            rw [hs]
            simp only [List.mem_singleton] at h2
            rw [h2]
        · exact Or.inr ⟨link, List.mem_cons_of_mem _ hm, he⟩

lemma response_ok_def (dom : Dom) :
    response (.ok dom)
      = if ((candidatesOf dom).filterMap processCandidate).isEmpty
        then tier2Loop (eval_xpath_dom dom (str "//a[@href]")) []
        else (candidatesOf dom).filterMap processCandidate := rfl

lemma response_ok_cases (dom : Dom) (rec : ResultRecord) (h : rec ∈ response (.ok dom)) :
    (∃ e, e ∈ candidatesOf dom ∧ processCandidate e = some rec) ∨
    rec ∈ tier2Loop (eval_xpath_dom dom (str "//a[@href]")) [] := by
  rw [response_ok_def] at h
  split at h
  · exact Or.inr h
  · rcases List.mem_filterMap.mp h with ⟨e, he, hpe⟩
    exact Or.inl ⟨e, he, hpe⟩

lemma findSome?_first_strong {α β : Type} (L : List α) (f : α → Option β) (i : Nat) (sel : α)
    (h1 : L[i]? = some sel)
    (h2 : ∀ j sel', j < i → L[j]? = some sel' → f sel' = none)
    (h3 : f sel ≠ none) : L.findSome? f = f sel := by
  induction L generalizing i with
  | nil => simp at h1
  | cons a L ih =>
    cases i with
    | zero =>
      simp only [List.getElem?_cons_zero, Option.some.injEq] at h1
      subst h1
      rw [List.findSome?_cons]
      cases hf : f a with
      | none => exact absurd hf h3
      | some b => simp [hf]
    | succ i =>
      simp only [List.getElem?_cons_succ] at h1
      have ha : f a = none := h2 0 a (Nat.succ_pos i) (by simp)
      rw [List.findSome?_cons, ha]
      exact ih i h1 fun j sel' hj hjs => h2 (j + 1) sel' (by omega) (by simpa using hjs)

lemma findSome?_all_none {α β : Type} (L : List α) (f : α → Option β)
    (h : ∀ sel ∈ L, f sel = none) : L.findSome? f = none := by
  induction L with
  | nil => rfl
  | cons a L ih =>
    rw [List.findSome?_cons, h a (List.mem_cons_self _ _)]
    exact ih fun sel hs => h sel (List.mem_cons_of_mem _ hs)

lemma dictSet_key_eq (m : List (Str × Str)) (k v : Str) :
    ∀ p ∈ dictSet m k v, p.1 = k → p = (k, v) := by
  intro p hp hk
  unfold dictSet at hp
  split at hp
  · obtain ⟨q, hq, hq2⟩ := List.mem_map.mp hp
    by_cases hqk : q.1 = k
    · rw [if_pos hqk] at hq2
      exact hq2.symm
    · rw [if_neg hqk] at hq2
      rw [← hq2] at hk
      exact absurd hk hqk
  · rcases List.mem_append.mp hp with h1 | h1
    · rename_i hany
      exact absurd (List.any_eq_true.mpr ⟨p, h1, by simp [hk]⟩) hany
    · simpa using h1

lemma dictSet_key_mem (m : List (Str × Str)) (k v : Str) :
    ∃ p ∈ dictSet m k v, p.1 = k := by
  unfold dictSet
  split
  · rename_i hany
    obtain ⟨q, hq, hqk⟩ := List.any_eq_true.mp hany
    simp only [decide_eq_true_eq] at hqk
    exact ⟨(k, v), List.mem_map.mpr ⟨q, hq, by rw [if_pos hqk]⟩, rfl⟩
  · exact ⟨(k, v), List.mem_append.mpr (Or.inr (by simp)), rfl⟩

lemma dictSet_other (m : List (Str × Str)) (k v k' : Str) (h : k' ≠ k) :
    ∀ p ∈ dictSet m k v, p.1 = k' → p ∈ m := by
  intro p hp hk
  unfold dictSet at hp
  split at hp
  · obtain ⟨q, hq, hq2⟩ := List.mem_map.mp hp
    by_cases hqk : q.1 = k
    · rw [if_pos hqk] at hq2
      rw [← hq2] at hk
      exact absurd hk.symm (by simpa using h)
    · rw [if_neg hqk] at hq2
      rw [← hq2]
      exact hq
  · rcases List.mem_append.mp hp with h1 | h1
    · exact h1
    · simp only [List.mem_singleton] at h1
      rw [h1] at hk
      exact absurd hk.symm h

lemma dictSet_eq_self (m : List (Str × Str)) (k v : Str)
    (hex : m.any (fun p => p.1 = k) = true)
    (hall : ∀ p ∈ m, p.1 = k → p = (k, v)) : dictSet m k v = m := by
  unfold dictSet
  rw [if_pos hex]
  have : ∀ p ∈ m, (if p.1 = k then (k, v) else p) = p := by
    intro p hp
    by_cases hpk : p.1 = k
    · rw [if_pos hpk]
      exact (hall p hp hpk).symm
    · rw [if_neg hpk]
  calc m.map (fun p => if p.1 = k then (k, v) else p) = m.map id := List.map_congr_left this
    _ = m := List.map_id m

lemma dictSet_any_self (m : List (Str × Str)) (k v : Str) :
    (dictSet m k v).any (fun p => p.1 = k) = true := by
  obtain ⟨p, hp, hpk⟩ := dictSet_key_mem m k v
  exact List.any_eq_true.mpr ⟨p, hp, by simp [hpk]⟩

lemma dictSet_any_other (m : List (Str × Str)) (k v k' : Str)
    (h : m.any (fun p => p.1 = k') = true) :
    (dictSet m k v).any (fun p => p.1 = k') = true := by
  obtain ⟨q, hq, hqk⟩ := List.any_eq_true.mp h
  simp only [decide_eq_true_eq] at hqk
  unfold dictSet
  split
  · refine List.any_eq_true.mpr ⟨if q.1 = k then (k, v) else q, List.mem_map.mpr ⟨q, hq, rfl⟩, ?_⟩
    by_cases hqk2 : q.1 = k
    · rw [if_pos hqk2]
      simp [← hqk, hqk2]
    · rw [if_neg hqk2]
      simp [hqk]
  · exact List.any_eq_true.mpr ⟨q, List.mem_append.mpr (Or.inl hq), by simp [hqk]⟩

lemma fetch_traits_idem (t : EngineTraits) : fetch_traits (fetch_traits t) = fetch_traits t := by
  unfold fetch_traits
  simp only [EngineTraits.mk.injEq]
  refine ⟨trivial, ?_, ?_⟩
  · apply dictSet_eq_self
    · exact dictSet_any_self _ _ _
    · exact dictSet_key_eq _ _ _
  · set r1 := dictSet t.regions (str "IN") (str "India") with hr1
    set r2 := dictSet r1 (str "US") (str "United States") with hr2
    have hin : ∀ p ∈ r2, p.1 = str "IN" → p = (str "IN", str "India") := by
      intro p hp hpk
      exact dictSet_key_eq t.regions _ _ p (dictSet_other r1 _ _ _ (by decide) p hp hpk) hpk
    have hinany : r2.any (fun p => p.1 = str "IN") = true :=
      dictSet_any_other r1 _ _ _ (dictSet_any_self _ _ _)
    rw [dictSet_eq_self r2 _ _ hinany hin]
    apply dictSet_eq_self
    · exact dictSet_any_self _ _ _
    · exact dictSet_key_eq _ _ _

lemma lookup_of_key_mem (m : List (Str × Str)) (k v : Str)
    (hall : ∀ p ∈ m, p.1 = k → p = (k, v))
    (hex : m.any (fun p => p.1 = k) = true) : List.lookup k m = some v := by
  induction m with
  | nil => simp at hex
  | cons q m ih =>
    rw [List.lookup_cons]
    by_cases hqk : q.1 = k
    · have := hall q (List.mem_cons_self _ _) hqk
      rw [this]
      simp
    · have hbeq : (k == q.1) = false := by
        simp only [beq_eq_false_iff_ne, ne_eq]
        intro he
        exact hqk he.symm
      simp only [hbeq]
      apply ih
      · intro p hp hpk
        exact hall p (List.mem_cons_of_mem _ hp) hpk
      · simp only [List.any_cons, Bool.or_eq_true] at hex
        rcases hex with h1 | h1
        · simp only [decide_eq_true_eq] at h1
          exact absurd h1 hqk
        · exact h1

lemma lookup_dictSet (m : List (Str × Str)) (k v : Str) :
    List.lookup k (dictSet m k v) = some v :=
  lookup_of_key_mem _ k v (dictSet_key_eq m k v) (dictSet_any_self m k v)

lemma digitChar_safe : ∀ m : Nat, m < 10 → isAlwaysSafe (Nat.digitChar m) = true := by
  decide

lemma toDigitsCore_safe (fuel : Nat) :
    ∀ (n : Nat) (ds : List Char), (∀ c ∈ ds, isAlwaysSafe c = true) →
      ∀ c ∈ Nat.toDigitsCore 10 fuel n ds, isAlwaysSafe c = true := by
  induction fuel with
  | zero =>
    intro n ds h c hc
    exact h c hc
  | succ fuel ih =>
    intro n ds h c hc
    unfold Nat.toDigitsCore at hc
    simp only at hc
    have hds : ∀ x ∈ Nat.digitChar (n % 10) :: ds, isAlwaysSafe x = true := by
      intro x hx
      rcases List.mem_cons.mp hx with hx | hx
      · rw [hx]
        exact digitChar_safe (n % 10) (by omega)
      · exact h x hx
    split at hc
    · exact hds c hc
    · exact ih _ _ hds c hc

lemma natStr_safe (n : Nat) : ∀ c ∈ natStr n, isAlwaysSafe c = true := by
  intro c hc
  unfold natStr Nat.repr Nat.toDigits at hc
  exact toDigitsCore_safe (n + 1) n [] (by simp) c hc

lemma quote_plus_safe (s : Str) (h : ∀ c ∈ s, isAlwaysSafe c = true) : quote_plus s = s := by
  unfold quote_plus
  induction s with
  | nil => rfl
  | cons c cs ih =>
    rw [List.flatMap_cons]
    have hc : quoteCharL c = [c] := by
      unfold quoteCharL
      rw [if_pos (h c (List.mem_cons_self _ _))]
    rw [hc, ih fun x hx => h x (List.mem_cons_of_mem _ hx)]
    rfl

lemma quote_plus_natStr (n : Nat) : quote_plus (natStr n) = natStr n :=
  quote_plus_safe _ (natStr_safe n)

lemma urlencode_four (k1 v1 k2 v2 k3 v3 k4 v4 : Str) :
    urlencode [(k1, v1), (k2, v2), (k3, v3), (k4, v4)]
      = quote_plus k1 ++ str "=" ++ quote_plus v1 ++ str "&"
        ++ (quote_plus k2 ++ str "=" ++ quote_plus v2) ++ str "&"
        ++ (quote_plus k3 ++ str "=" ++ quote_plus v3) ++ str "&"
        ++ (quote_plus k4 ++ str "=" ++ quote_plus v4) := by
  unfold urlencode
  simp [List.intercalate, List.intersperse, List.append_assoc]

lemma processCandidate_record (e : Element) (rec : ResultRecord)
    (h : processCandidate e = some rec) :
    5 ≤ (pyStrip rec.title).length ∧ pyStartsWith rec.url (str "http") = true ∧
    rec.content = cleanContent (extractContent e) := by
  obtain ⟨t, u, het, h5, heu, hne, hrec⟩ := processCandidate_eq_some e rec h
  have hst := extractTitle_strip e t het
  subst hrec
  refine ⟨classify_title_strip_len _ _ _ h5 hst, ?_, ?_⟩
  · rw [classify_url]
    exact normalizeUrl_startsWith_http u
  · rw [classify_content]

lemma tier2_record (link : Element) (rec : ResultRecord) (h : tier2Step link = some rec) :
    5 ≤ (pyStrip rec.title).length ∧ pyStartsWith rec.url (str "http") = true ∧
    rec.content = str "Content from Nishith Desai Associates" ∧ rec.isLink = true := by
  obtain ⟨hrefs, href, hx, hh, hne, h1, h2, h3, hlen, hrec⟩ := tier2Step_eq_some link rec h
  subst hrec
  refine ⟨?_, normalizeUrl_startsWith_http href, rfl, rfl⟩
  show 5 ≤ (pyStrip (pyStrip link.textContent)).length
  rw [pyStrip_idem]
  omega

lemma pyEndsWith_pyContains (s suf : Str) (h : pyEndsWith s suf = true) :
    pyContains s suf = true := by
  unfold pyEndsWith at h
  obtain ⟨pre, hpre⟩ := List.isSuffixOf_iff_suffix.mp h
  unfold pyContains
  simp only [decide_eq_true_eq]
  exact ⟨pre, [], by simp [hpre]⟩

/-- Claim C7: for every response input whose HTML cannot be parsed (the
top-level `html.fromstring` raises), `response` returns the empty result
set and, being a total function, never propagates an exception to the
host. -/
theorem c7_parse_failure_empty (msg : Str) : response (.error msg) = [] := rfl

/-- Claim C10: the helper `eval_xpath` is total: whatever the underlying
evaluator does on an element and expression (including raising on a
syntactically invalid expression), it returns a list — the evaluator's
list on success and the empty list whenever evaluation raised
internally. -/
theorem c10_eval_xpath_total (e : Element) (expr : Str) :
    (∀ msg, e.xpath expr = .error msg → eval_xpath e expr = []) ∧
    (∀ l, e.xpath expr = .ok l → eval_xpath e expr = l) := by
  constructor
  · intro msg h
    unfold eval_xpath
    rw [h]
  · intro l h
    unfold eval_xpath
    rw [h]

/-- Witness for C10: a concrete element whose evaluator always raises
yields `[]`, and a concrete succeeding evaluator's list is passed
through. -/
theorem c10_eval_xpath_total_witness :
    eval_xpath c10Elem (str "///bad-expression[") = [] ∧
    eval_xpath c10OkElem (str ".//p/text()") = [str "ok"] :=
  ⟨(c10_eval_xpath_total c10Elem (str "///bad-expression[")).1 _ rfl,
    (c10_eval_xpath_total c10OkElem (str ".//p/text()")).2 _ rfl⟩

/-- Claim C9: `fetch_traits` sets the locale to en-IN, maps language en to
"English", sets region tags IN and US on any traits object, is idempotent,
and is fully determined on a fresh traits object. -/
theorem c9_fetch_traits_determined :
    (∀ t : EngineTraits,
      (fetch_traits t).all_locale = some (str "en-IN") ∧
      List.lookup (str "en") (fetch_traits t).languages = some (str "English") ∧
      List.lookup (str "IN") (fetch_traits t).regions = some (str "India") ∧
      List.lookup (str "US") (fetch_traits t).regions = some (str "United States") ∧
      fetch_traits (fetch_traits t) = fetch_traits t) ∧
    fetch_traits freshTraits = ⟨some (str "en-IN"), [(str "en", str "English")],
      [(str "IN", str "India"), (str "US", str "United States")]⟩ := by
  constructor
  · intro t
    refine ⟨rfl, lookup_dictSet _ _ _, ?_, lookup_dictSet _ _ _, fetch_traits_idem t⟩
    apply lookup_of_key_mem
    · intro p hp hpk
      exact dictSet_key_eq t.regions _ _ p
        (dictSet_other (dictSet t.regions (str "IN") (str "India")) _ _ _ (by decide) p hp hpk) hpk
    · exact dictSet_any_other _ _ _ _ (dictSet_any_self _ _ _)
  · decide

/-- Claim C1 counterexample: the document `c1Dom` has a matching container
selector, yet the parser emits a record whose URL `httpfoo/doc.html` — an
href that starts with `http` and is therefore passed through unchanged —
is not an absolute http/https URL. -/
theorem c1_absolute_counterexample :
    result_selectors.any (fun sel => !(eval_xpath_dom c1Dom sel).isEmpty) = true ∧
    response (.ok c1Dom) = [.Link (str "httpfoo/doc.html")
      (str "[Legal Content] Important Legal Update") (str "")] ∧
    isAbsoluteHttpUrl (str "httpfoo/doc.html") = false := by
  refine ⟨by decide, by decide, by decide⟩

/-- Claim C1 (amended): whenever a container selector matches, every
emitted record has a title of at least 5 characters after trimming, and a
URL that starts with `http` (hrefs joined to the base origin become
absolute https URLs; an href already starting with `http` passes through
unchanged even when it is not an http/https URL). -/
theorem c1_emitted_records (dom : Dom) (rec : ResultRecord)
    (hmatch : result_selectors.any (fun sel => !(eval_xpath_dom dom sel).isEmpty) = true)
    (hrec : rec ∈ response (.ok dom)) :
    5 ≤ (pyStrip rec.title).length ∧ pyStartsWith rec.url (str "http") = true := by
  rcases response_ok_cases dom rec hrec with ⟨e, _, hpe⟩ | ht
  · have h := processCandidate_record e rec hpe
    exact ⟨h.1, h.2.1⟩
  · rcases tier2Loop_mem _ _ _ ht with h1 | ⟨link, _, he⟩
    · simp at h1
    · have h := tier2_record link rec he
      exact ⟨h.1, h.2.1⟩

/-- Witness for the amended C1 on the spec's end-to-end example
document. -/
theorem c1_emitted_records_witness :
    5 ≤ (pyStrip (ResultRecord.title (.Link
      (str "https://www.nishithdesai.com/hotline/123.html")
      (str "[Legal Hotline] Cross-Border Tax Hotline") (str "Summary text.")))).length ∧
    pyStartsWith (ResultRecord.url (.Link
      (str "https://www.nishithdesai.com/hotline/123.html")
      (str "[Legal Hotline] Cross-Border Tax Hotline") (str "Summary text.")))
      (str "http") = true :=
  c1_emitted_records c1wDom _ (by decide) (by decide)

/-- Claim C2: every emitted record's snippet is at most 300 characters, and
whenever the cleaned content exceeded 300 characters the published snippet
has length exactly 300 and ends in the three characters `...`. -/
theorem c2_snippet_bounds :
    (∀ (parsed : Except Str Dom) (rec : ResultRecord), rec ∈ response parsed →
      rec.content.length ≤ 300) ∧
    (∀ raw : Str, 300 < (pyStrip (collapseWs raw)).length →
      (cleanContent raw).length = 300 ∧ (cleanContent raw).drop 297 = str "...") := by
  constructor
  · intro parsed rec hrec
    cases parsed with
    | error e => simp [response] at hrec
    | ok dom =>
      rcases response_ok_cases dom rec hrec with ⟨e, _, hpe⟩ | ht
      · rw [(processCandidate_record e rec hpe).2.2]
        exact cleanContent_length_le _
      · rcases tier2Loop_mem _ _ _ ht with h1 | ⟨link, _, he⟩
        · simp at h1
        · rw [(tier2_record link rec he).2.2.1]
          decide
  · exact cleanContent_of_long

set_option maxRecDepth 4000 in
/-- Witness for C2: a concrete emitted record obeys the cap, and a concrete
301-character raw snippet is truncated to exactly 300 with an `...`
suffix. -/
theorem c2_snippet_bounds_witness :
    (ResultRecord.content (.Link (str "https://www.nishithdesai.com/research/data.html")
      (str "[Research Article] Data Protection Update") (str "Short summary."))).length ≤ 300 ∧
    ((cleanContent c2Raw).length = 300 ∧ (cleanContent c2Raw).drop 297 = str "...") :=
  ⟨c2_snippet_bounds.1 (.ok c2wDom) _ (by decide), c2_snippet_bounds.2 c2Raw (by decide)⟩

/-- Claim C3 counterexample: a candidate whose normalized URL ends in
`.pdf` but also contains `hotline` is emitted as a LinkResult carrying the
`[Legal Hotline] ` prefix, because the hotline keyword is checked before
the `.pdf` test. -/
theorem c3_pdf_counterexample :
    response (.ok c3Dom) = [.Link (str "https://www.nishithdesai.com/hotline/guide.pdf")
      (str "[Legal Hotline] Tax Treaty Guide") (str "")] ∧
    pyEndsWith (pyLower (str "https://www.nishithdesai.com/hotline/guide.pdf"))
      (str ".pdf") = true ∧
    (ResultRecord.Link (str "https://www.nishithdesai.com/hotline/guide.pdf")
      (str "[Legal Hotline] Tax Treaty Guide") (str "")).isLink = true := by
  refine ⟨by decide, by decide, by decide⟩

/-- Claim C3 (amended): a candidate whose normalized lowercased URL ends in
`.pdf` and contains none of the earlier classification keywords (hotline,
research, article, news) is emitted as a FileResult whose title is the
bare extracted title with no content-type prefix; and the tier-2 fallback
(the only place the 10-record cap applies) emits LinkResults only, so
FileResults never count toward that cap. -/
theorem c3_pdf_classification :
    (∀ (e : Element) (rec : ResultRecord), processCandidate e = some rec →
      pyEndsWith (pyLower rec.url) (str ".pdf") = true →
      pyContains (pyLower rec.url) (str "hotline") = false →
      pyContains (pyLower rec.url) (str "research") = false →
      pyContains (pyLower rec.url) (str "article") = false →
      pyContains (pyLower rec.url) (str "news") = false →
      ∃ t, extractTitle e = some t ∧ rec = .File rec.url t rec.content) ∧
    (∀ (links : List Element) (rec : ResultRecord),
      rec ∈ tier2Loop links [] → rec.isLink = true) := by
  constructor
  · intro e rec hpe hpdf h1 h2 h3 h4
    obtain ⟨t, u, het, h5, heu, hne, hrec⟩ := processCandidate_eq_some e rec hpe
    have hurl : rec.url = normalizeUrl u := by rw [hrec, classify_url]
    have hcont : rec.content = cleanContent (extractContent e) := by rw [hrec, classify_content]
    have hpdfc : pyContains (pyLower rec.url) (str ".pdf") = true :=
      pyEndsWith_pyContains _ _ hpdf
    rw [hurl] at h1 h2 h3 h4 hpdfc
    refine ⟨t, het, ?_⟩
    calc rec = classify (normalizeUrl u) t (cleanContent (extractContent e)) := hrec
      _ = .File (normalizeUrl u) t (cleanContent (extractContent e)) :=
          classify_pdf _ t _ h1 h2 h3 h4 hpdfc
      _ = .File rec.url t rec.content := by rw [hurl, hcont]
  · intro links rec h
    rcases tier2Loop_mem _ _ _ h with h1 | ⟨link, _, he⟩
    · simp at h1
    · exact (tier2_record link rec he).2.2.2

/-- Witness for the amended C3: a concrete `.pdf` candidate with no earlier
keyword becomes a FileResult with the bare title, and a concrete tier-2
run emits a LinkResult. -/
theorem c3_pdf_classification_witness :
    (∃ t, extractTitle c3wElem = some t ∧
      (ResultRecord.File (str "https://www.nishithdesai.com/files/annual-compliance-report.pdf")
          (str "Annual Compliance Report") (str ""))
        = .File (ResultRecord.url (.File
            (str "https://www.nishithdesai.com/files/annual-compliance-report.pdf")
            (str "Annual Compliance Report") (str ""))) t
          (ResultRecord.content (.File
            (str "https://www.nishithdesai.com/files/annual-compliance-report.pdf")
            (str "Annual Compliance Report") (str "")))) ∧
    (ResultRecord.Link (str "https://www.nishithdesai.com/insights/overview.html")
      (str "Overview of regulatory insights")
      (str "Content from Nishith Desai Associates")).isLink = true :=
  ⟨c3_pdf_classification.1 c3wElem _ (by decide) (by decide) (by decide) (by decide) (by decide)
      (by decide),
    c3_pdf_classification.2 [c3wLink] _ (by decide)⟩

/-- Claim C4: the title is taken from the first selector, in the fixed
priority order h1, h2, h3, h4, anchor, strong, title-classed span/div,
whose match list is non-empty — its first node's text, stripped; no match
at all yields no title; and the candidate is skipped at the title stage
(returning no record, not failing) exactly when the title is absent or
shorter than 5 characters after trimming, while a title of 5 or more
characters lets processing continue with URL extraction. -/
theorem c4_title_priority :
    (∀ (e : Element) (i : Nat) (sel x : Str), title_selectors[i]? = some sel →
      (∀ j sel', j < i → title_selectors[j]? = some sel' → eval_xpath e sel' = []) →
      (eval_xpath e sel).head? = some x → extractTitle e = some (pyStrip x)) ∧
    (∀ e : Element, (∀ sel ∈ title_selectors, eval_xpath e sel = []) →
      extractTitle e = none) ∧
    (∀ e : Element, extractTitle e = none → processCandidate e = none) ∧
    (∀ (e : Element) (t : Str), extractTitle e = some t → t.length < 5 →
      processCandidate e = none) ∧
    (∀ (e : Element) (t : Str), extractTitle e = some t → 5 ≤ t.length →
      processCandidate e = afterTitle e t) := by
  refine ⟨?_, ?_, ?_, ?_, ?_⟩
  · intro e i sel x h1 h2 h3
    unfold extractTitle
    rw [findSome?_first_strong title_selectors _ i sel h1
      (fun j sel' hj hjs => by rw [h2 j sel' hj hjs]; rfl) (by rw [h3]; simp)]
    rw [h3]
    rfl
  · intro e h
    unfold extractTitle
    rw [findSome?_all_none _ _ fun sel hs => by rw [h sel hs]; rfl]
    rfl
  · intro e h
    unfold processCandidate
    rw [h]
  · intro e t ht h5
    unfold processCandidate
    rw [ht]
    simp only
    rw [if_pos h5]
  · intro e t ht h5
    unfold processCandidate
    rw [ht]
    simp only
    rw [if_neg (by omega)]

/-- Witness for C4 on concrete elements: the h2 selector wins when h1 is
empty; an element with no matches has no title; missing and short titles
skip the candidate; an accepted title proceeds to the URL stage. -/
theorem c4_title_priority_witness :
    extractTitle c4wElem = some (pyStrip (str "  Valid Heading  ")) ∧
    extractTitle c4wEmpty = none ∧
    processCandidate c4wEmpty = none ∧
    processCandidate c4wShort = none ∧
    processCandidate c4wElem = afterTitle c4wElem (str "Valid Heading") := by
  refine ⟨?_, ?_, ?_, ?_, ?_⟩
  · exact c4_title_priority.1 c4wElem 1 (str ".//h2/text()") (str "  Valid Heading  ")
      (by decide)
      (fun j sel' hj hjs => by
        interval_cases j
        · rw [show title_selectors[0]? = some (str ".//h1/text()") from by decide] at hjs
          rw [← Option.some.inj hjs]
          decide)
      (by decide)
  · exact c4_title_priority.2.1 c4wEmpty (by decide)
  · exact c4_title_priority.2.2.1 c4wEmpty (by decide)
  · exact c4_title_priority.2.2.2.1 c4wShort (str "Hi") (by decide) (by decide)
  · exact c4_title_priority.2.2.2.2 c4wElem (str "Valid Heading") (by decide) (by decide)

/-- Claim C5 counterexample: for a selector whose matches begin with a
whitespace-only fragment followed by three real fragments, the code joins
only the non-empty ones among the first 3 matches (two fragments), while
the claim's "first 3 non-empty trimmed fragments" rule would join three. -/
theorem c5_snippet_counterexample :
    content_selectors[0]? = some (str ".//p/text()") ∧
    eval_xpath c5Elem (str ".//p/text()") = [str "   ", str "Legal update on tax.",
      str "More details here.", str "Third fragment text."] ∧
    extractContent c5Elem = str "Legal update on tax. More details here." ∧
    snippetFromFirstThreeNonEmpty (eval_xpath c5Elem (str ".//p/text()"))
      = str "Legal update on tax. More details here. Third fragment text." ∧
    extractContent c5Elem
      ≠ snippetFromFirstThreeNonEmpty (eval_xpath c5Elem (str ".//p/text()")) := by
  refine ⟨by decide, by decide, by decide, by decide, by decide⟩

/-- Claim C5 (amended): for the first content selector with a non-empty
match list, the snippet before cleanup is the non-empty trimmed fragments
among the first 3 matches of that selector, joined with single spaces. -/
theorem c5_snippet_formula (e : Element) (i : Nat) (sel : Str)
    (h1 : content_selectors[i]? = some sel)
    (h2 : ∀ j sel', j < i → content_selectors[j]? = some sel' → eval_xpath e sel' = [])
    (h3 : eval_xpath e sel ≠ []) :
    extractContent e
      = joinSpace ((((eval_xpath e sel).take 3).map pyStrip).filter fun t => !t.isEmpty) := by
  unfold extractContent
  rw [findSome?_first_strong content_selectors _ i sel h1
    (fun j sel' hj hjs => by rw [h2 j sel' hj hjs]; rfl)
    (by simp only [ne_eq, List.isEmpty_iff]; rw [if_neg h3]; simp)]
  simp only [List.isEmpty_iff]
  rw [if_neg h3]

/-- Witness for the amended C5 on a concrete two-fragment element. -/
theorem c5_snippet_formula_witness :
    extractContent c5wElem
      = joinSpace ((((eval_xpath c5wElem (str ".//p/text()")).take 3).map pyStrip).filter
          fun t => !t.isEmpty) :=
  c5_snippet_formula c5wElem 0 (str ".//p/text()") (by decide)
    (fun j sel' hj hjs => absurd hj (by omega)) (by decide)

/-- Claim C6: the tier-2 link fallback is entered only when the main path
produced zero accepted records; starting (as it then does) from an empty
result list it never emits more than 10 records; and every record it emits
comes from a link whose href is present, does not start with `#`,
`javascript:` or `mailto:`, and whose trimmed visible text is longer than
10 characters. -/
theorem c6_tier2_fallback :
    (∀ dom : Dom, (candidatesOf dom).filterMap processCandidate ≠ [] →
      response (.ok dom) = (candidatesOf dom).filterMap processCandidate) ∧
    (∀ dom : Dom, (candidatesOf dom).filterMap processCandidate = [] →
      response (.ok dom) = tier2Loop (eval_xpath_dom dom (str "//a[@href]")) []) ∧
    (∀ links : List Element, (tier2Loop links []).length ≤ 10) ∧
    (∀ (links : List Element) (rec : ResultRecord), rec ∈ tier2Loop links [] →
      ∃ link, link ∈ links ∧ tier2Step link = some rec) ∧
    (∀ (link : Element) (rec : ResultRecord), tier2Step link = some rec →
      ∃ hrefs href, link.xpath (str "./@href") = .ok hrefs ∧ hrefs.head? = some href ∧
        pyStartsWith href (str "#") = false ∧
        pyStartsWith href (str "javascript:") = false ∧
        pyStartsWith href (str "mailto:") = false ∧
        10 < (pyStrip link.textContent).length) := by
  refine ⟨?_, ?_, ?_, ?_, ?_⟩
  · intro dom h
    rw [response_ok_def, if_neg (by simpa [List.isEmpty_iff] using h)]
  · intro dom h
    rw [response_ok_def, if_pos (by simpa [List.isEmpty_iff] using h)]
  · intro links
    exact tier2Loop_length links [] (by simp)
  · intro links rec h
    rcases tier2Loop_mem links [] rec h with h1 | h1
    · simp at h1
    · exact h1
  · intro link rec h
    obtain ⟨hrefs, href, hx, hh, _, h1, h2, h3, hlen, _⟩ := tier2Step_eq_some link rec h
    exact ⟨hrefs, href, hx, hh, h1, h2, h3, hlen⟩

/-- Witness for C6: a document with an accepted candidate keeps its main
results (no fallback); an empty main path falls back to the tier-2 loop;
the cap holds on a concrete link list; and a concretely accepted tier-2
record exposes its validated href and text. -/
theorem c6_tier2_fallback_witness :
    response (.ok c6wDom1) = (candidatesOf c6wDom1).filterMap processCandidate ∧
    response (.ok c6wDom2) = tier2Loop (eval_xpath_dom c6wDom2 (str "//a[@href]")) [] ∧
    (tier2Loop [c6wLink] []).length ≤ 10 ∧
    (∃ link, link ∈ [c6wLink] ∧ tier2Step link = some (.Link
      (str "https://www.nishithdesai.com/reports/yearly.html")
      (str "Yearly report of the firm") (str "Content from Nishith Desai Associates"))) ∧
    (∃ hrefs href, c6wLink.xpath (str "./@href") = .ok hrefs ∧ hrefs.head? = some href ∧
      pyStartsWith href (str "#") = false ∧
      pyStartsWith href (str "javascript:") = false ∧
      pyStartsWith href (str "mailto:") = false ∧
      10 < (pyStrip c6wLink.textContent).length) := by
  refine ⟨c6_tier2_fallback.1 c6wDom1 (by decide),
    c6_tier2_fallback.2.1 c6wDom2 (by decide),
    c6_tier2_fallback.2.2.1 [c6wLink],
    c6_tier2_fallback.2.2.2.1 [c6wLink] _ (by decide),
    c6_tier2_fallback.2.2.2.2 c6wLink (.Link
      (str "https://www.nishithdesai.com/reports/yearly.html")
      (str "Yearly report of the firm") (str "Content from Nishith Desai Associates"))
      (by decide)⟩

/-- Claim C8: for every query and page number at least 1, the request is a
GET carrying the static header bundle, whose URL is the search endpoint
with parameters q and searchtext percent-encoding the whitespace-trimmed
query, page the input page number and results 20; the page number encodes
to itself (digits are safe characters) and the encoded query decodes back
to the trimmed query, so the encoding is correct. -/
theorem c8_request_shape (query : Str) (n : Nat) (hn : 1 ≤ n) :
    (request query ⟨some n, [], [], []⟩).method = str "GET" ∧
    (request query ⟨some n, [], [], []⟩).headers = headers ∧
    (request query ⟨some n, [], [], []⟩).url
      = search_url ++ str "?" ++ str "q=" ++ quote_plus (pyStrip query)
        ++ str "&searchtext=" ++ quote_plus (pyStrip query)
        ++ str "&page=" ++ natStr n ++ str "&results=20" ∧
    quote_plus (natStr n) = natStr n ∧
    unquote_plus (quote_plus (pyStrip query)) = some (pyStrip query) := by
  refine ⟨rfl, rfl, ?_, quote_plus_natStr n, unquote_plus_quote_plus _⟩
  have m1 : ∀ X : Str, str "q" ++ (str "=" ++ X) = str "q=" ++ X := by
    intro X
    rw [← List.append_assoc]
    exact congrArg (fun a => a ++ X) (by decide)
  have m2 : ∀ X : Str, str "&" ++ (str "searchtext" ++ (str "=" ++ X))
      = str "&searchtext=" ++ X := by
    intro X
    rw [← List.append_assoc, ← List.append_assoc]
    exact congrArg (fun a => a ++ X) (by decide)
  have m3 : ∀ X : Str, str "&" ++ (str "page" ++ (str "=" ++ X)) = str "&page=" ++ X := by
    intro X
    rw [← List.append_assoc, ← List.append_assoc]
    exact congrArg (fun a => a ++ X) (by decide)
  have m4 : str "&" ++ (str "results" ++ (str "=" ++ natStr 20)) = str "&results=20" := by
    decide
  have h0 : (request query ⟨some n, [], [], []⟩).url
      = search_url ++ str "?" ++ urlencode [(str "q", pyStrip query),
        (str "searchtext", pyStrip query), (str "page", natStr n),
        (str "results", natStr 20)] := rfl
  rw [h0, urlencode_four,
    show quote_plus (str "q") = str "q" from by decide,
    show quote_plus (str "searchtext") = str "searchtext" from by decide,
    show quote_plus (str "page") = str "page" from by decide,
    show quote_plus (str "results") = str "results" from by decide,
    quote_plus_natStr n, quote_plus_natStr 20]
  simp only [List.append_assoc]
  rw [m1, m2, m3, m4]

/-- Witness for C8 at a concrete query with surrounding whitespace and page
number 2. -/
theorem c8_request_shape_witness :
    (request (str "  cross border tax  ") ⟨some 2, [], [], []⟩).method = str "GET" ∧
    (request (str "  cross border tax  ") ⟨some 2, [], [], []⟩).headers = headers ∧
    (request (str "  cross border tax  ") ⟨some 2, [], [], []⟩).url
      = search_url ++ str "?" ++ str "q="
        ++ quote_plus (pyStrip (str "  cross border tax  "))
        ++ str "&searchtext=" ++ quote_plus (pyStrip (str "  cross border tax  "))
        ++ str "&page=" ++ natStr 2 ++ str "&results=20" ∧
    quote_plus (natStr 2) = natStr 2 ∧
    unquote_plus (quote_plus (pyStrip (str "  cross border tax  ")))
      = some (pyStrip (str "  cross border tax  ")) :=
  c8_request_shape (str "  cross border tax  ") 2 (by decide)
